import Mathlib

/-!
Verification development for the fst columnar storage codec
(FastStore.cpp, FastStore_v1.cpp, logical_v10.cpp, fstdefines.h).

The C++ sources are shallowly embedded: each reader/writer becomes a pure
Lean function over a parsed view of the file bytes, returning
`Except String _` where the C++ raises `Rf_error` with the same message
string.  External column codecs (character_v6, integer_v8, ... — their
sources are not part of the verified subset) appear only through the
arguments the table reader/writer passes to them, recorded as explicit
request values, and through abstract byte-size parameters for the writer.
-/

namespace Fst

/-- `FST_VERSION` from FastStore.cpp / fstdefines.h: version number of the
fst package. -/
def FST_VERSION : Nat := 1

/-- `FST_FILE_ID` from FastStore.cpp / fstdefines.h: identifies a fst file. -/
def FST_FILE_ID : Nat := 0xa91c12f8b245a71d

/-- `TABLE_META_SIZE` from FastStore.cpp: size of the table meta-data block. -/
def TABLE_META_SIZE : Nat := 24

/-- `BLOCKSIZE_LOGICAL` from logical_v10.cpp: number of logicals in a
default compression block. -/
def BLOCKSIZE_LOGICAL : Nat := 4096

/-- The deprecation warning text passed to `Rf_warning` in `fstRead_v1`
(FastStore_v1.cpp). -/
def deprecationMsg : String :=
  "This fst file was created with a beta version of the fst package. Please re-write the data as this format will not be supported in future releases."

/-- One call of the table reader into a per-type column decoder
(`fdsReadCharVec_v6` / `fdsReadIntVec_v8` / ... in FastStore.cpp, or the
`_v1`..`_v5` family in FastStore_v1.cpp).  The decoder sources are outside
the verified subset, so the reader is modelled as emitting the exact
argument tuple it passes to them. -/
structure DecodeReq where
  colNr : Nat
  colType : Nat
  pos : Nat
  firstRow : Int
  lenR : Int
  nrOfRows : Int
deriving Repr, DecidableEq

/-- Result shape of a successful `fstRead` / `fstRead_v1` call: the selected
column names, the decode requests issued (one per selected column, in
order), the `found` key counter, the returned key names (when `found > 0`),
and the `Rf_warning` messages emitted. -/
structure ReadOutput where
  selectedNames : List String
  decodes : List DecodeReq
  found : Nat
  keyNames : Option (List String)
  warnings : List String
deriving Repr, DecidableEq

/-- Result shape of `fstMeta` / `fstMeta_v1`. -/
structure MetaOutput where
  nrOfCols : Nat
  nrOfRows : Int
  fstVersion : Nat
  colTypeVec : List Int
  keyLength : Nat
  keyNames : Option (List String)
  keyColIndex : Option (List Int)
  colNames : List String
  nrOfChunks : Nat
  warnings : List String
deriving Repr, DecidableEq

/-- Column-name resolution loop shared verbatim by `fstRead` (FastStore.cpp
lines 538-569) and `fstRead_v1` (FastStore_v1.cpp lines 330-361): each
requested name is scanned linearly over the first `nrOfCols` column names;
the first missing name aborts with `"Selected column not found."`. -/
def resolveNames (colNames : List String) (nrOfCols : Nat) :
    List String → Except String (List Nat)
  | [] => .ok []
  | nm :: rest =>
    match (List.range nrOfCols).find? (fun c => colNames.getD c "" = nm) with
    | none => .error "Selected column not found."
    | some c =>
      match resolveNames colNames nrOfCols rest with
      | .error e => .error e
      | .ok cs => .ok (c :: cs)

/-- Column-selection resolution: a null selection selects all columns
`0..nrOfCols-1`; otherwise names are resolved by `resolveNames`. -/
def resolveColumns (colNames : List String) (nrOfCols : Nat)
    (sel : Option (List String)) : Except String (List Nat) :=
  match sel with
  | none => .ok (List.range nrOfCols)
  | some names => resolveNames colNames nrOfCols names

/-- Row-range validation block shared verbatim by `fstRead` (FastStore.cpp
lines 572-611) and `fstRead_v1` (FastStore_v1.cpp lines 364-404).
`startRow` is the 1-based `fromRow`; the function returns the 0-based
`firstRow` together with the number of rows to read. -/
def rowRangeCheck (startRow : Int) (endRow : Option Int) (nrOfRows : Int) :
    Except String (Int × Int) :=
  let firstRow := startRow - 1
  if firstRow ≥ nrOfRows ∨ firstRow < 0 then
    .error (if firstRow < 0 then "Parameter fromRow should have a positive value."
            else "Row selection is out of range.")
  else
    match endRow with
    | none => .ok (firstRow, nrOfRows - firstRow)
    | some lastRow =>
      if lastRow ≤ firstRow then
        .error "Parameter 'lastRow' should be equal to or larger than parameter 'fromRow'."
      else .ok (firstRow, min (lastRow - firstRow) (nrOfRows - firstRow))

/-- Per-column decode dispatch loop of the readers: bound-check the column
index, then switch on the column type (`validCodes` lists the type codes
that have a `case`; any other value hits the `default:` branch raising
`"Unknown type found in column."`).  `typeOf`/`posOf` read the column-type
array and the column-position index. -/
def decodeColumns (nrOfCols : Nat) (typeOf posOf : Nat → Nat)
    (validCodes : List Nat) (colIndex : List Nat)
    (firstRow lenR nrOfRows : Int) : Except String (List DecodeReq) :=
  match colIndex with
  | [] => .ok []
  | colNr :: rest =>
    if nrOfCols ≤ colNr then .error "Column selection is out of range."
    else if typeOf colNr ∈ validCodes then
      match decodeColumns nrOfCols typeOf posOf validCodes rest firstRow lenR nrOfRows with
      | .error e => .error e
      | .ok ds => .ok (⟨colNr, typeOf colNr, posOf colNr, firstRow, lenR, nrOfRows⟩ :: ds)
    else .error "Unknown type found in column."

/-- The `found` counter of the readers: the number of key slots whose stored
column index occurs in the selected column indices. -/
def countFound (keyColPos : List Int) (keyLength : Nat) (colIndex : List Nat) : Nat :=
  ((List.range keyLength).filter
    (fun i => colIndex.any (fun c => keyColPos.getD i 0 = Int.ofNat c))).length

/-- Output assembly shared by both readers: selected names, decode requests,
the `found` counter and — when `found > 0` — the key names rebuilt from the
first `found` key slots (mirroring the loop `for (i = 0; i < found; ++i)`
over `keyColPos[i]`). -/
def buildReadOutput (colNames : List String) (keyColPos : List Int)
    (keyLength : Nat) (colIndex : List Nat) (ds : List DecodeReq)
    (warn : List String) : ReadOutput :=
  let found := countFound keyColPos keyLength colIndex
  { selectedNames := colIndex.map (fun c => colNames.getD c ""),
    decodes := ds,
    found := found,
    keyNames := if 0 < found then
        some ((List.range found).map (fun i => colNames.getD (keyColPos.getD i 0).toNat ""))
      else none,
    warnings := warn }

/-- Parsed view of a legacy (pre-`FST_FILE_ID`) file as `fstRead_v1` /
`fstMeta_v1` interpret the bytes: the two leading 16-bit sizes, `keyLength`
16-bit key indices, `nrOfCols` 16-bit type codes, `nrOfCols + 1` 64-bit
block positions (`allBlockPos[0]` is the row count) and the column names. -/
structure FileV0 where
  colSize0 : Int
  colSize1 : Int
  keyColumns : List Int
  colTypes : List Int
  allBlockPos : List Nat
  colNames : List String
deriving Repr, DecidableEq

/-- `nrOfCols = colSizes[0]` of the legacy header (after the sign check). -/
def v0NrOfCols (f0 : FileV0) : Nat := f0.colSize0.toNat

/-- `keyLength = colSizes[1] & 32767` of the legacy header (the bitmask
`0x7fff` on a non-negative value is reduction mod 32768). -/
def v0KeyLength (f0 : FileV0) : Nat := f0.colSize1.toNat % 32768

/-- The four "additional checks compared to CRAN v0.7.2" at the top of both
`fstRead_v1` and `fstMeta_v1` (FastStore_v1.cpp), in source order:
negative size fields; key indices out of `[0, nrOfCols)`; type codes out of
`[0, 5]`; block positions decreasing (the loop runs `colCount = 2 ..
nrOfCols` and rejects `allBlockPos[colCount] < allBlockPos[colCount-1]`,
so equal adjacent positions are accepted). -/
def v0HeaderChecks (f0 : FileV0) : Except String Unit :=
  if f0.colSize0 < 0 ∨ f0.colSize1 < 0 then
    .error "Unrecognised file type, are you sure this is a fst file?"
  else if (List.range (v0KeyLength f0)).any
      (fun k => decide (f0.keyColumns.getD k 0 < 0 ∨
                        (v0NrOfCols f0 : Int) ≤ f0.keyColumns.getD k 0)) then
    .error "Error reading file header, are you sure this is a fst file?"
  else if (List.range (v0NrOfCols f0)).any
      (fun c => decide (f0.colTypes.getD c 0 < 0 ∨ 5 < f0.colTypes.getD c 0)) then
    .error "Error reading file header, are you sure this is a fst file?"
  else if (List.range' 2 (v0NrOfCols f0 - 1)).any
      (fun c => decide (f0.allBlockPos.getD c 0 < f0.allBlockPos.getD (c - 1) 0)) then
    .error "Error reading file header (blockPos), are you sure this is a fst file?"
  else .ok ()

/-- Shallow embedding of `fstRead_v1` (FastStore_v1.cpp): header checks,
column-name resolution, row-range validation, per-column decode dispatch
(type codes 1..5), then output assembly; every successful exit passes
through `Rf_warning(deprecationMsg)`. -/
def fstRead_v1 (f0 : FileV0) (columnSelection : Option (List String))
    (startRow : Int) (endRow : Option Int) : Except String ReadOutput :=
  match v0HeaderChecks f0 with
  | .error e => .error e
  | .ok _ =>
    match resolveColumns f0.colNames (v0NrOfCols f0) columnSelection with
    | .error e => .error e
    | .ok colIndex =>
      match rowRangeCheck startRow endRow (Int.ofNat (f0.allBlockPos.getD 0 0)) with
      | .error e => .error e
      | .ok (firstRow, lenR) =>
        match decodeColumns (v0NrOfCols f0) (fun c => (f0.colTypes.getD c 0).toNat)
            (fun c => f0.allBlockPos.getD (c + 1) 0) [1, 2, 3, 4, 5] colIndex
            firstRow lenR (Int.ofNat (f0.allBlockPos.getD 0 0)) with
        | .error e => .error e
        | .ok ds =>
          .ok (buildReadOutput f0.colNames f0.keyColumns (v0KeyLength f0) colIndex ds
                [deprecationMsg])

/-- Shallow embedding of `fstMeta_v1` (FastStore_v1.cpp): the same header
checks, plus `nrOfRows <= 0` rejection; no `Rf_warning` call appears
anywhere in this function, so `warnings` is empty. -/
def fstMeta_v1 (f0 : FileV0) : Except String MetaOutput :=
  match v0HeaderChecks f0 with
  | .error e => .error e
  | .ok _ =>
    let nrOfRows : Int := Int.ofNat (f0.allBlockPos.getD 0 0)
    if nrOfRows ≤ 0 then
      .error "Error reading file header (blockPos), are you sure this is a fst file?"
    else
      let keyLength := v0KeyLength f0
      .ok { nrOfCols := v0NrOfCols f0,
            nrOfRows := nrOfRows,
            fstVersion := 0,
            colTypeVec := (List.range (v0NrOfCols f0)).map (fun c => f0.colTypes.getD c 0),
            keyLength := keyLength,
            keyNames := if 0 < keyLength then
                some ((List.range keyLength).map
                  (fun i => f0.colNames.getD (f0.keyColumns.getD i 0).toNat ""))
              else none,
            keyColIndex := if 0 < keyLength then
                some ((List.range keyLength).map (fun i => f0.keyColumns.getD i 0))
              else none,
            colNames := f0.colNames,
            nrOfChunks := 1,
            warnings := [] }

/-- Parsed view of a file as the current-format reader interprets it: the
24-byte table header fields, the chunk metadata, key indices, column types,
column names and the column-position index (`blockPos` in `fstRead`).
`v0` is the legacy reinterpretation of the same bytes, used when the file
ID does not match and the call is delegated to the `_v1` reader. -/
structure RawFile where
  nrOfCols : Nat
  keyLength : Nat
  version : Nat
  nrOfChunksPerIndexRow : Nat
  fileId : Nat
  chunkRows0 : Nat
  nrOfChunks : Nat
  keyColPos : List Int
  colTypes : List Nat
  colNames : List String
  colPositions : List Nat
  v0 : FileV0
deriving Repr, DecidableEq

/-- Shallow embedding of `ReadHeader` (FastStore.cpp): a mismatching
`fileId` yields 0 (legacy dispatch); otherwise a version newer than
`FST_VERSION` is rejected, and the stored version is returned. -/
def ReadHeader (f : RawFile) : Except String Nat :=
  if f.fileId ≠ FST_FILE_ID then .ok 0
  else if FST_VERSION < f.version then
    .error "Incompatible fst file: file was created by a newer version of the fst package."
  else .ok f.version

/-- Shallow embedding of `fstRead` (FastStore.cpp): header read and version
dispatch, `nrOfChunks` check, column-name resolution, row-range validation,
per-column decode dispatch (type codes 6..10 via the column-position index,
which is used without any monotonicity validation), output assembly. -/
def fstRead (f : RawFile) (columnSelection : Option (List String))
    (startRow : Int) (endRow : Option Int) : Except String ReadOutput :=
  match ReadHeader f with
  | .error e => .error e
  | .ok version =>
    if version = 0 then fstRead_v1 f.v0 columnSelection startRow endRow
    else if 1 < f.nrOfChunks then
      .error "Multiple chunk read not implemented yet."
    else
      match resolveColumns f.colNames f.nrOfCols columnSelection with
      | .error e => .error e
      | .ok colIndex =>
        match rowRangeCheck startRow endRow (Int.ofNat f.chunkRows0) with
        | .error e => .error e
        | .ok (firstRow, lenR) =>
          match decodeColumns f.nrOfCols (fun c => f.colTypes.getD c 0)
              (fun c => f.colPositions.getD c 0) [6, 7, 8, 9, 10] colIndex
              firstRow lenR (Int.ofNat f.chunkRows0) with
          | .error e => .error e
          | .ok ds =>
            .ok (buildReadOutput f.colNames f.keyColPos f.keyLength colIndex ds [])

/-- Shallow embedding of `fstMeta` (FastStore.cpp): header read and version
dispatch to `fstMeta_v1`, then schema assembly (no `nrOfChunks` check and
no warnings on this path). -/
def fstMeta (f : RawFile) : Except String MetaOutput :=
  match ReadHeader f with
  | .error e => .error e
  | .ok version =>
    if version = 0 then fstMeta_v1 f.v0
    else
      .ok { nrOfCols := f.nrOfCols,
            nrOfRows := Int.ofNat f.chunkRows0,
            fstVersion := version,
            colTypeVec := (List.range f.nrOfCols).map (fun c => (f.colTypes.getD c 0 : Int)),
            keyLength := f.keyLength,
            keyNames := if 0 < f.keyLength then
                some ((List.range f.keyLength).map
                  (fun i => f.colNames.getD (f.keyColPos.getD i 0).toNat ""))
              else none,
            keyColIndex := if 0 < f.keyLength then
                some ((List.range f.keyLength).map (fun i => f.keyColPos.getD i 0))
              else none,
            colNames := f.colNames,
            nrOfChunks := f.nrOfChunks,
            warnings := [] }

/-- Shallow embedding of `FindKey` (FastStore.cpp): linear scan of the
column-name list for `item`; the index of the first match is returned, and
`-1` when no name matches. -/
def FindKey (colNameList : List String) (item : String) : Int :=
  go colNameList 0
where
  go : List String → Int → Int
    | [], _ => -1
    | x :: xs, found => if x = item then found else go xs (found + 1)

/-- R type tag of a column vector as `fstStore` switches on it
(`TYPEOF(colVec)`, with factors distinguished inside `INTSXP`). -/
inductive RType
  | strsxp
  | intsxp
  | factor
  | realsxp
  | lglsxp
  | other
deriving Repr, DecidableEq

/-- A column handed to `fstStore`: its name (from the `names` attribute),
its R type tag and its element count. -/
structure RColumn where
  name : String
  rtype : RType
  len : Nat
deriving Repr, DecidableEq

instance : Inhabited RColumn := ⟨⟨"", RType.other, 0⟩⟩

/-- The two-byte column type code `fstStore` records for each R type
(`none` for a type with no `case`, which raises
`"Unknown type found in column."`). -/
def typeCodeOf : RType → Option Nat
  | .strsxp => some 6
  | .factor => some 7
  | .intsxp => some 8
  | .realsxp => some 9
  | .lglsxp => some 10
  | .other => none

/-- One call of `fstStore` into a per-type column encoder
(`fdsWriteCharVec_v6` / `fdsWriteIntVec_v8` / ...): the column number, the
recorded type code, the file position recorded into the column-position
index just before the call, the row-count argument passed to the codec
(always the `nrOfRows` taken from the first column) and the compression
level. -/
structure ColWrite where
  colNr : Nat
  typeCode : Nat
  filePos : Nat
  rows : Nat
  compression : Nat
deriving Repr, DecidableEq

/-- Result of a successful `fstStore` call: the header fields it writes,
the byte offsets of the regions it emits, the filled column-position index
(`positionData`), the codec calls it issued, and the backfill data
(`chunkPos` and the offset at which the filled index is rewritten). -/
structure StoreResult where
  metaDataSize : Nat
  nrOfCols : Nat
  keyLength : Nat
  version : Nat
  nrOfChunksPerIndexRow : Nat
  fileId : Nat
  chunkRows0 : Nat
  nrOfChunks : Nat
  keyColPos : List Int
  colTypes : List Nat
  namesOffset : Nat
  placeholderIndexOffset : Nat
  positionData : List Nat
  colWrites : List ColWrite
  chunkPos : Nat
  indexRewriteOffset : Nat
deriving Repr, DecidableEq

/-- The column loop of `fstStore`: for each column, record the current file
position into the column-position index, then dispatch to the per-type
codec, advancing the file position by the payload size the codec writes
(`paySize`, see `fstStore`).  Returns the filled position index, the
column-type array, the codec calls and the final file position. -/
def writeColumns (paySize : Nat → Nat) (compress nrOfRows : Nat) :
    List RColumn → Nat → Nat →
    Except String (List Nat × List Nat × List ColWrite × Nat)
  | [], _, pos => .ok ([], [], [], pos)
  | c :: rest, colNr, pos =>
    match typeCodeOf c.rtype with
    | none => .error "Unknown type found in column."
    | some t =>
      match writeColumns paySize compress nrOfRows rest (colNr + 1) (pos + paySize colNr) with
      | .error e => .error e
      | .ok (posD, types, ws, endPos) =>
        .ok (pos :: posD, t :: types, ⟨colNr, t, pos, nrOfRows, compress⟩ :: ws, endPos)

/-- `keyLength` as `fstStore` derives it from the `sorted` attribute: zero
when the attribute is absent, else its length. -/
def optionKeyLength : Option (List String) → Nat
  | none => 0
  | some ks => ks.length

/-- The key-column-index slots `fstStore` fills: each key name is resolved
through `FindKey` with no check on the result. -/
def optionKeyColPos (colNames : List String) : Option (List String) → List Int
  | none => []
  | some ks => ks.map (FindKey colNames)

/-- Shallow embedding of `fstStore` (FastStore.cpp).

Modelled from the spec: the byte sizes produced by the external column
codecs, whose sources (character_v6.cpp and friends) are outside the
verified subset — `namesSize` is the size of the column-names block written
by `fdsWriteCharVec_v6`, and `paySize colNr` the size of column `colNr`'s
payload; the table writer only ever observes these sizes through `tellp`.

The function follows the source: validate the compression level, count
columns and keys, reject an empty table, resolve key names through
`FindKey` (the result is stored unchecked), take `nrOfRows` from the first
column, reject zero rows, emit header / names / placeholder index /
per-column payloads while recording positions, then backfill
`chunkPos = positionData[0] - 8*nrOfCols` and rewrite the filled
column-position index at that offset. -/
def fstStore (table : List RColumn) (keyNames : Option (List String))
    (compression : Int) (namesSize : Nat) (paySize : Nat → Nat) :
    Except String StoreResult :=
  if compression < 0 ∨ 100 < compression then
    .error "Parameter compression should be an integer value between 0 and 100"
  else
    let colNames := table.map RColumn.name
    let nrOfCols := table.length
    let keyLength := optionKeyLength keyNames
    if nrOfCols = 0 then .error "Your dataset needs at least one column."
    else
      let metaDataSize := 156 + 4 * keyLength + 2 * nrOfCols
      let keyColPos := optionKeyColPos colNames keyNames
      let nrOfRows := (table.headD default).len
      if nrOfRows = 0 then .error "The dataset contains no data."
      else
        let namesOffset := metaDataSize
        let placeholderIndexOffset := metaDataSize + namesSize
        let payloadStart := placeholderIndexOffset + 8 * nrOfCols
        match writeColumns paySize compression.toNat nrOfRows table 0 payloadStart with
        | .error e => .error e
        | .ok (posD, types, ws, _) =>
          let chunkPos := posD.headD 0 - 8 * nrOfCols
          .ok { metaDataSize := metaDataSize,
                nrOfCols := nrOfCols,
                keyLength := keyLength,
                version := FST_VERSION,
                nrOfChunksPerIndexRow := 1,
                fileId := FST_FILE_ID,
                chunkRows0 := nrOfRows,
                nrOfChunks := 1,
                keyColPos := keyColPos,
                colTypes := types,
                namesOffset := namesOffset,
                placeholderIndexOffset := placeholderIndexOffset,
                positionData := posD,
                colWrites := ws,
                chunkPos := chunkPos,
                indexRewriteOffset := chunkPos }

/-- Compression algorithms referenced by the logical codec
(`CompAlgo::...` in logical_v10.cpp). -/
inductive CompAlgo
  | LOGIC64
  | LZ4_LOGIC64
  | ZSTD_LOGIC64
deriving Repr, DecidableEq

/-- A `SingleCompressor(algo, level)` as constructed in logical_v10.cpp. -/
structure SingleCompressor where
  algo : CompAlgo
  level : Nat
deriving Repr, DecidableEq

/-- The streaming call `fdsWriteLogicalVec_v10` sets up: either the
uncompressed path (`fdsStreamUncompressed_v2` with a
`FixedRatioCompressor`) or the compressed path (`fdsStreamcompressed_v2`
with a `StreamCompositeCompressor` over two single compressors at a mix
ratio).  `elemSize` is the element-size argument, `blockSizeLogicals` the
block-size argument, both in every call. -/
inductive LogicalWritePlan
  | uncompressed (fixedAlgo : CompAlgo) (elemSize blockSizeLogicals : Nat)
  | composite (c1 c2 : SingleCompressor) (mixFactor : Nat)
      (elemSize blockSizeLogicals : Nat)
deriving Repr, DecidableEq

/-- Shallow embedding of `fdsWriteLogicalVec_v10` (logical_v10.cpp) as the
compression strategy it selects from the compression level; `none` models
the fall-through for a level above 100, which writes nothing. -/
def fdsWriteLogicalVec_v10 (compression : Nat) : Option LogicalWritePlan :=
  if compression = 0 then
    some (.uncompressed .LOGIC64 4 BLOCKSIZE_LOGICAL)
  else if compression ≤ 50 then
    some (.composite ⟨.LOGIC64, 0⟩ ⟨.LZ4_LOGIC64, 100⟩ (2 * compression)
      4 BLOCKSIZE_LOGICAL)
  else if compression ≤ 100 then
    some (.composite ⟨.LZ4_LOGIC64, 100⟩ ⟨.ZSTD_LOGIC64, 30 + 7 * (compression - 50) / 5⟩
      (2 * (compression - 50)) 4 BLOCKSIZE_LOGICAL)
  else none

/-! ### Sample files and helper lemmas -/

/-- A well-formed legacy-v0 file: two columns of type 2 (integer), no keys,
three rows, increasing block positions. -/
def sampleV0 : FileV0 :=
  { colSize0 := 2, colSize1 := 0, keyColumns := [], colTypes := [2, 2],
    allBlockPos := [3, 100, 200], colNames := ["a", "b"] }

/-- A well-formed single-chunk current-format file: an integer column `a`
and a double column `b`, three rows, increasing column positions. -/
def sampleV1 : RawFile :=
  { nrOfCols := 2, keyLength := 0, version := 1, nrOfChunksPerIndexRow := 1,
    fileId := FST_FILE_ID, chunkRows0 := 3, nrOfChunks := 1,
    keyColPos := [], colTypes := [8, 9], colNames := ["a", "b"],
    colPositions := [300, 400], v0 := sampleV0 }

/-- A constant payload-size oracle for concrete witnesses. -/
def constPay : Nat → Nat := fun _ => 50

theorem FindKey_go_of_not_mem (item : String) :
    ∀ (l : List String) (found : Int), item ∉ l → FindKey.go item l found = -1 := by
  intro l
  induction l with
  | nil => intro found _; rfl
  | cons x xs ih =>
    intro found hnot
    have hx : x ≠ item := fun h => hnot (h ▸ List.mem_cons_self x xs)
    have hxs : item ∉ xs := fun h => hnot (List.mem_cons_of_mem x h)
    simp only [FindKey.go, if_neg hx]
    exact ih (found + 1) hxs

/-- `FindKey` returns -1 when the item matches no column name. -/
theorem FindKey_of_not_mem (l : List String) (item : String) (h : item ∉ l) :
    FindKey l item = -1 :=
  FindKey_go_of_not_mem item l 0 h

theorem writeColumns_ok (paySize : Nat → Nat) (compress nrOfRows : Nat) :
    ∀ (cols : List RColumn) (colNr pos : Nat),
      (∀ c ∈ cols, c.rtype ≠ RType.other) →
      ∃ posD types ws endPos,
        writeColumns paySize compress nrOfRows cols colNr pos =
          .ok (posD, types, ws, endPos) ∧
        posD.length = cols.length ∧
        (cols ≠ [] → posD.headD 0 = pos) ∧
        (∀ w ∈ ws, w.rows = nrOfRows ∧ w.compression = compress) ∧
        ws.length = cols.length := by
  intro cols
  induction cols with
  | nil =>
    intro colNr pos _
    exact ⟨[], [], [], pos, rfl, rfl, by simp, by simp, rfl⟩
  | cons c rest ih =>
    intro colNr pos h
    have hc : c.rtype ≠ RType.other := h c (List.mem_cons_self c rest)
    obtain ⟨t, ht⟩ : ∃ t, typeCodeOf c.rtype = some t := by
      cases hr : c.rtype
      case other => exact absurd hr hc
      all_goals exact ⟨_, rfl⟩
    obtain ⟨posD, types, ws, endPos, hwc, hlen, _, hrows, hwlen⟩ :=
      ih (colNr + 1) (pos + paySize colNr) (fun c' hc' => h c' (List.mem_cons_of_mem c hc'))
    refine ⟨pos :: posD, t :: types, ⟨colNr, t, pos, nrOfRows, compress⟩ :: ws, endPos,
      ?_, ?_, ?_, ?_, ?_⟩
    · simp only [writeColumns, ht, hwc]
    · simp [hlen]
    · simp
    · intro w hw
      rcases List.mem_cons.mp hw with h' | h'
      · subst h'; exact ⟨rfl, rfl⟩
      · exact hrows w h'
    · simp [hwlen]

/-- Master lemma about a successful `fstStore`: the writer succeeds on any
non-empty, non-zero-row table of known column types and valid compression
level, with the header fields, offsets and codec calls the source emits. -/
theorem fstStore_ok (table : List RColumn) (ks : Option (List String)) (compression : Int)
    (namesSize : Nat) (paySize : Nat → Nat)
    (h0 : 0 ≤ compression) (h1 : compression ≤ 100)
    (hcols : table ≠ []) (hrows : (table.headD default).len ≠ 0)
    (htypes : ∀ c ∈ table, c.rtype ≠ RType.other) :
    ∃ r, fstStore table ks compression namesSize paySize = .ok r ∧
      r.metaDataSize = 156 + 4 * r.keyLength + 2 * table.length ∧
      r.keyLength = optionKeyLength ks ∧
      r.nrOfCols = table.length ∧
      r.version = 1 ∧
      r.nrOfChunksPerIndexRow = 1 ∧
      r.fileId = FST_FILE_ID ∧
      r.chunkRows0 = (table.headD default).len ∧
      r.nrOfChunks = 1 ∧
      r.keyColPos = optionKeyColPos (table.map RColumn.name) ks ∧
      r.namesOffset = r.metaDataSize ∧
      r.placeholderIndexOffset = r.metaDataSize + namesSize ∧
      r.positionData.headD 0 = r.placeholderIndexOffset + 8 * table.length ∧
      r.positionData.length = table.length ∧
      r.chunkPos = r.positionData.headD 0 - 8 * table.length ∧
      r.chunkPos = r.placeholderIndexOffset ∧
      r.indexRewriteOffset = r.chunkPos ∧
      (∀ w ∈ r.colWrites, w.rows = (table.headD default).len ∧
        w.compression = compression.toNat) ∧
      r.colWrites.length = table.length := by
  have hcomp : ¬ (compression < 0 ∨ 100 < compression) := by omega
  have hne : ¬ (table.length = 0) := by
    simpa [List.length_eq_zero] using hcols
  obtain ⟨posD, types, ws, endPos, hwc, hlen, hhead, hrows', hwlen⟩ :=
    writeColumns_ok paySize compression.toNat ((table.headD default).len) table 0
      (156 + 4 * optionKeyLength ks + 2 * table.length + namesSize + 8 * table.length) htypes
  have hhead' := hhead hcols
  have hmain : fstStore table ks compression namesSize paySize =
      .ok { metaDataSize := 156 + 4 * optionKeyLength ks + 2 * table.length,
            nrOfCols := table.length,
            keyLength := optionKeyLength ks,
            version := FST_VERSION,
            nrOfChunksPerIndexRow := 1,
            fileId := FST_FILE_ID,
            chunkRows0 := (table.headD default).len,
            nrOfChunks := 1,
            keyColPos := optionKeyColPos (table.map RColumn.name) ks,
            colTypes := types,
            namesOffset := 156 + 4 * optionKeyLength ks + 2 * table.length,
            placeholderIndexOffset := 156 + 4 * optionKeyLength ks
              + 2 * table.length + namesSize,
            positionData := posD,
            colWrites := ws,
            chunkPos := posD.headD 0 - 8 * table.length,
            indexRewriteOffset := posD.headD 0 - 8 * table.length } := by
    simp only [fstStore, if_neg hcomp, if_neg hne, if_neg hrows, hwc]
  exact ⟨_, hmain, rfl, rfl, rfl, rfl, rfl, rfl, rfl, rfl, rfl, rfl, rfl, hhead', hlen, rfl,
    (by simp only [hhead']; omega), rfl, hrows', hwlen⟩

/-! ### Claim theorems -/

/-- C5: for every logical column write with compression level in [0,100],
level 0 selects the fixed-ratio LOGIC64-only uncompressed stream; levels
1..50 select a composite of plain LOGIC64 and LZ4-over-LOGIC64 at maximum
strength (100) with mix ratio `2*level`; levels 51..100 select a composite
of LZ4-over-LOGIC64 and ZSTD-over-LOGIC64 at strength
`30 + 7*(level-50)/5` with mix ratio `2*(level-50)`; all calls use blocks
of 4096 logicals (element size 4). -/
theorem claimC5_logical_compression (compression : Nat) (h : compression ≤ 100) :
    (compression = 0 →
      fdsWriteLogicalVec_v10 compression =
        some (.uncompressed .LOGIC64 4 4096)) ∧
    (1 ≤ compression → compression ≤ 50 →
      fdsWriteLogicalVec_v10 compression =
        some (.composite ⟨.LOGIC64, 0⟩ ⟨.LZ4_LOGIC64, 100⟩ (2 * compression) 4 4096)) ∧
    (51 ≤ compression →
      fdsWriteLogicalVec_v10 compression =
        some (.composite ⟨.LZ4_LOGIC64, 100⟩
          ⟨.ZSTD_LOGIC64, 30 + 7 * (compression - 50) / 5⟩
          (2 * (compression - 50)) 4 4096)) := by
  refine ⟨?_, ?_, ?_⟩
  · intro h0; subst h0; rfl
  · intro h1 h2
    have hne : compression ≠ 0 := by omega
    simp [fdsWriteLogicalVec_v10, hne, h2, BLOCKSIZE_LOGICAL]
  · intro h1
    have hne : compression ≠ 0 := by omega
    have h2 : ¬ compression ≤ 50 := by omega
    simp [fdsWriteLogicalVec_v10, hne, h2, h, BLOCKSIZE_LOGICAL]

/-- Witness for C5 at level 75: strength `30 + 7*25/5 = 65`, ratio 50. -/
theorem claimC5_witness :
    fdsWriteLogicalVec_v10 75 =
      some (.composite ⟨.LZ4_LOGIC64, 100⟩ ⟨.ZSTD_LOGIC64, 65⟩ 50 4 4096) := by
  have h := (claimC5_logical_compression 75 (by decide)).2.2 (by decide)
  simpa using h

/-- C4: on a current-format file whose header records more than one chunk,
`fstRead` fails with the multi-chunk error, irrespective of the column
selection, the row range and all column data — i.e. before any column
decode is dispatched. -/
theorem claimC4_multichunk_refused (f : RawFile) (sel : Option (List String))
    (s : Int) (e : Option Int)
    (hid : f.fileId = FST_FILE_ID) (hv : f.version = 1) (hchunks : 1 < f.nrOfChunks) :
    fstRead f sel s e = .error "Multiple chunk read not implemented yet." := by
  simp [fstRead, ReadHeader, hid, hv, hchunks, FST_VERSION]

/-- Multi-chunk variant of `sampleV1`. -/
def multiChunkV1 : RawFile := { sampleV1 with nrOfChunks := 2 }

/-- Witness for C4 on a concrete two-chunk file. -/
theorem claimC4_witness :
    fstRead multiChunkV1 none 1 none = .error "Multiple chunk read not implemented yet." :=
  claimC4_multichunk_refused multiChunkV1 none 1 none rfl rfl (by decide)

/-- C7: when the 8-byte file ID mismatches, both `fstRead` and `fstMeta`
delegate wholly to the legacy-v0 reader; when the file ID matches but the
stored version exceeds `FST_VERSION`, both refuse with the
incompatible-version error. -/
theorem claimC7_header_dispatch (f : RawFile) (sel : Option (List String))
    (s : Int) (e : Option Int) :
    (f.fileId ≠ FST_FILE_ID →
      fstRead f sel s e = fstRead_v1 f.v0 sel s e ∧ fstMeta f = fstMeta_v1 f.v0) ∧
    (f.fileId = FST_FILE_ID → FST_VERSION < f.version →
      fstRead f sel s e =
        .error "Incompatible fst file: file was created by a newer version of the fst package." ∧
      fstMeta f =
        .error "Incompatible fst file: file was created by a newer version of the fst package.") := by
  constructor
  · intro hid
    constructor <;> simp [fstRead, fstMeta, ReadHeader, hid]
  · intro hid hv
    constructor <;> simp [fstRead, fstMeta, ReadHeader, hid, hv]

/-- `sampleV1` with a wrong file ID (legacy dispatch). -/
def badIdV1 : RawFile := { sampleV1 with fileId := 0 }

/-- `sampleV1` claiming a newer format version. -/
def newerV1 : RawFile := { sampleV1 with version := 2 }

/-- Witness for C7: legacy dispatch on a wrong ID, refusal on version 2. -/
theorem claimC7_witness :
    fstRead badIdV1 none 1 none = fstRead_v1 badIdV1.v0 none 1 none ∧
    fstMeta newerV1 =
      .error "Incompatible fst file: file was created by a newer version of the fst package." :=
  ⟨((claimC7_header_dispatch badIdV1 none 1 none).1 (by decide)).1,
   ((claimC7_header_dispatch newerV1 none 1 none).2 rfl (by decide)).2⟩

/-- C6: every successful write of a table with `K` key columns and `C`
columns emits a fixed metadata block of `156 + 4*K + 2*C` bytes with
version, `nrOfChunksPerIndexRow = 1`, the fst file ID,
`chunkRows = nrOfRows`, `nrOfChunks = 1`; and after the column payloads the
header's `chunkPos` is backfilled to the first column's payload position
minus `8*C` — which is exactly the offset of the (placeholder)
column-position index — and the filled index is rewritten at that offset. -/
theorem claimC6_write_layout (table : List RColumn) (ks : Option (List String))
    (compression : Int) (namesSize : Nat) (paySize : Nat → Nat)
    (h0 : 0 ≤ compression) (h1 : compression ≤ 100)
    (hcols : table ≠ []) (hrows : (table.headD default).len ≠ 0)
    (htypes : ∀ c ∈ table, c.rtype ≠ RType.other) :
    ∃ r, fstStore table ks compression namesSize paySize = .ok r ∧
      r.metaDataSize = 156 + 4 * r.keyLength + 2 * r.nrOfCols ∧
      r.version = FST_VERSION ∧
      r.nrOfChunksPerIndexRow = 1 ∧
      r.fileId = FST_FILE_ID ∧
      r.chunkRows0 = (table.headD default).len ∧
      r.nrOfChunks = 1 ∧
      r.chunkPos = r.positionData.headD 0 - 8 * r.nrOfCols ∧
      r.indexRewriteOffset = r.chunkPos ∧
      r.chunkPos = r.placeholderIndexOffset ∧
      r.positionData.length = r.nrOfCols := by
  obtain ⟨r, hr, hmeta, hkl, hcols', hv, hnc, hfid, hcr, hnch, hkcp, hno, hpio, hpd, hpdl,
    hcp, hcpe, hiro, hws, hwsl⟩ :=
    fstStore_ok table ks compression namesSize paySize h0 h1 hcols hrows htypes
  refine ⟨r, hr, ?_, hv, hnc, hfid, hcr, hnch, ?_, hiro, hcpe, ?_⟩
  · rw [hcols']; exact hmeta
  · rw [hcols']; exact hcp
  · rw [hcols']; exact hpdl

/-- Sample table for the C6 witness. -/
def tableC6 : List RColumn := [⟨"a", RType.intsxp, 3⟩, ⟨"b", RType.realsxp, 3⟩]

/-- Witness for C6 at a concrete table and compression level. -/
theorem claimC6_witness :
    (fstStore tableC6 none 42 7 constPay).toOption.isSome = true := by
  obtain ⟨r, hr, -⟩ := claimC6_write_layout tableC6 none 42 7 constPay (by decide)
    (by decide) (by decide) (by decide) (by decide)
  rw [hr]; rfl

/-- C9: a key ("sorted") name matching no column name is not rejected:
`FindKey` returns -1 and `fstStore` succeeds with -1 stored in a
key-column-index slot of the header, violating the in-range key-index
invariant. -/
theorem claimC9_unknown_key_silent (table : List RColumn) (ks : List String) (item : String)
    (compression : Int) (namesSize : Nat) (paySize : Nat → Nat)
    (h0 : 0 ≤ compression) (h1 : compression ≤ 100)
    (hcols : table ≠ []) (hrows : (table.headD default).len ≠ 0)
    (htypes : ∀ c ∈ table, c.rtype ≠ RType.other)
    (hmem : item ∈ ks) (hnot : item ∉ table.map RColumn.name) :
    FindKey (table.map RColumn.name) item = -1 ∧
    ∃ r, fstStore table (some ks) compression namesSize paySize = .ok r ∧
      (-1 : Int) ∈ r.keyColPos := by
  have hfk := FindKey_of_not_mem (table.map RColumn.name) item hnot
  refine ⟨hfk, ?_⟩
  obtain ⟨r, hr, -, -, -, -, -, -, -, -, hkcp, -⟩ :=
    fstStore_ok table (some ks) compression namesSize paySize h0 h1 hcols hrows htypes
  refine ⟨r, hr, ?_⟩
  rw [hkcp]
  exact List.mem_map.2 ⟨item, hmem, hfk⟩

/-- Sample table for the C9 witness. -/
def tableC9 : List RColumn := [⟨"a", RType.intsxp, 3⟩, ⟨"b", RType.lglsxp, 3⟩]

/-- Witness for C9: key name `"z"` matches no column of `tableC9`. -/
theorem claimC9_witness : FindKey (tableC9.map RColumn.name) "z" = -1 :=
  (claimC9_unknown_key_silent tableC9 ["z"] "z" 0 5 constPay (by decide) (by decide)
    (by decide) (by decide) (by decide) (by decide) (by decide)).1

/-- C10: the writer takes the row count from the first column only and
passes it to every codec call; a table whose other columns have different
lengths is written without any error. -/
theorem claimC10_no_length_check (table : List RColumn) (ks : Option (List String))
    (compression : Int) (namesSize : Nat) (paySize : Nat → Nat)
    (h0 : 0 ≤ compression) (h1 : compression ≤ 100)
    (hcols : table ≠ []) (hrows : (table.headD default).len ≠ 0)
    (htypes : ∀ c ∈ table, c.rtype ≠ RType.other)
    (_hunequal : ∃ c ∈ table, c.len ≠ (table.headD default).len) :
    ∃ r, fstStore table ks compression namesSize paySize = .ok r ∧
      r.colWrites.length = table.length ∧
      ∀ w ∈ r.colWrites, w.rows = (table.headD default).len := by
  obtain ⟨r, hr, -, -, -, -, -, -, -, -, -, -, -, -, -, -, -, -, hws, hwsl⟩ :=
    fstStore_ok table ks compression namesSize paySize h0 h1 hcols hrows htypes
  exact ⟨r, hr, hwsl, fun w hw => (hws w hw).1⟩

/-- A table with unequal column lengths for the C10 witness. -/
def tableC10 : List RColumn := [⟨"a", RType.intsxp, 3⟩, ⟨"b", RType.realsxp, 7⟩]

/-- Witness for C10: the unequal-length table is written without error. -/
theorem claimC10_witness :
    (fstStore tableC10 none 0 10 constPay).toOption.isSome = true := by
  obtain ⟨r, hr, -⟩ := claimC10_no_length_check tableC10 none 0 10 constPay (by decide)
    (by decide) (by decide) (by decide) (by decide) ⟨⟨"b", RType.realsxp, 7⟩, by decide, by decide⟩
  rw [hr]; rfl

theorem resolveNames_mem (colNames : List String) (n : Nat) :
    ∀ (names : List String) (idx : List Nat),
      resolveNames colNames n names = .ok idx → ∀ c ∈ idx, c < n := by
  intro names
  induction names with
  | nil =>
    intro idx h c hc
    injection h with h'
    subst h'
    exact absurd hc (by simp)
  | cons nm rest ih =>
    intro idx h c hc
    simp only [resolveNames] at h
    split at h
    next => exact Except.noConfusion h
    next c0 hf =>
      split at h
      next => exact Except.noConfusion h
      next cs hr =>
        injection h with h'
        subst h'
        rcases List.mem_cons.mp hc with rfl | hc'
        · exact List.mem_range.mp (List.mem_of_find?_eq_some hf)
        · exact ih cs hr c hc'

/-- Indices produced by the column-selection resolution are in range. -/
theorem resolveColumns_mem (colNames : List String) (sel : Option (List String))
    (n : Nat) (idx : List Nat) (h : resolveColumns colNames n sel = .ok idx) :
    ∀ c ∈ idx, c < n := by
  cases sel with
  | none =>
    injection h with h'
    subst h'
    intro c hc
    exact List.mem_range.mp hc
  | some names => exact resolveNames_mem colNames n names idx h

/-- The decode loop succeeds, issuing one request per selected column, when
every selected column is in range and has a dispatchable type code. -/
theorem decodeColumns_ok (nrOfCols : Nat) (typeOf posOf : Nat → Nat)
    (validCodes : List Nat) (firstRow lenR nrOfRows : Int) :
    ∀ colIndex : List Nat,
      (∀ c ∈ colIndex, c < nrOfCols ∧ typeOf c ∈ validCodes) →
      decodeColumns nrOfCols typeOf posOf validCodes colIndex firstRow lenR nrOfRows =
        .ok (colIndex.map (fun c => ⟨c, typeOf c, posOf c, firstRow, lenR, nrOfRows⟩)) := by
  intro colIndex
  induction colIndex with
  | nil => intro _; rfl
  | cons c rest ih =>
    intro h
    obtain ⟨hc, ht⟩ := h c (List.mem_cons_self c rest)
    simp only [decodeColumns, if_neg (Nat.not_le.mpr hc), if_pos ht,
      ih (fun c' hc' => h c' (List.mem_cons_of_mem c hc')), List.map_cons]

/-- The v1 read path on a well-formed file reduces to the row-range check
followed by the per-column decode requests. -/
theorem fstRead_valid_eq (f : RawFile) (sel : Option (List String)) (s : Int)
    (e : Option Int) (colIndex : List Nat)
    (hid : f.fileId = FST_FILE_ID) (hv : f.version = 1) (hch : ¬ 1 < f.nrOfChunks)
    (hsel : resolveColumns f.colNames f.nrOfCols sel = .ok colIndex)
    (htypes : ∀ c ∈ colIndex, f.colTypes.getD c 0 ∈ [6, 7, 8, 9, 10]) :
    fstRead f sel s e =
      match rowRangeCheck s e (Int.ofNat f.chunkRows0) with
      | .error e' => .error e'
      | .ok (firstRow, lenR) =>
        .ok (buildReadOutput f.colNames f.keyColPos f.keyLength colIndex
          (colIndex.map (fun c =>
            ⟨c, f.colTypes.getD c 0, f.colPositions.getD c 0, firstRow, lenR,
              Int.ofNat f.chunkRows0⟩)) []) := by
  have hrh : ReadHeader f = .ok 1 := by
    simp [ReadHeader, hid, hv, FST_VERSION]
  have hdec := fun (fr lr : Int) =>
    decodeColumns_ok f.nrOfCols (fun c => f.colTypes.getD c 0)
      (fun c => f.colPositions.getD c 0) [6, 7, 8, 9, 10] fr lr
      (Int.ofNat f.chunkRows0) colIndex
      (fun c hc => ⟨resolveColumns_mem f.colNames sel f.nrOfCols colIndex hsel c hc,
        htypes c hc⟩)
  cases hrr : rowRangeCheck s e (Int.ofNat f.chunkRows0) with
  | error e' =>
    unfold fstRead
    rw [hrh]
    dsimp only
    rw [if_neg (by decide : ¬ (1 : Nat) = 0), if_neg hch, hsel]
    dsimp only
    rw [hrr]
  | ok p =>
    obtain ⟨fr, lr⟩ := p
    unfold fstRead
    rw [hrh]
    dsimp only
    rw [if_neg (by decide : ¬ (1 : Nat) = 0), if_neg hch, hsel]
    dsimp only
    rw [hrr]
    dsimp only
    rw [hdec fr lr]

/-- C2 (amended): with an explicit `toRow`, the reader raises the
`'lastRow'` error exactly when `toRow < fromRow` — that is, when
`toRow ≤ fromRow - 1`; `toRow = fromRow` is accepted and selects one row. -/
theorem claimC2_amended_toRow (f : RawFile) (sel : Option (List String))
    (s lastRow : Int) (colIndex : List Nat)
    (hid : f.fileId = FST_FILE_ID) (hv : f.version = 1) (hch : ¬ 1 < f.nrOfChunks)
    (hsel : resolveColumns f.colNames f.nrOfCols sel = .ok colIndex)
    (htypes : ∀ c ∈ colIndex, f.colTypes.getD c 0 ∈ [6, 7, 8, 9, 10])
    (hs1 : 1 ≤ s) (hs2 : s ≤ Int.ofNat f.chunkRows0) :
    (fstRead f sel s (some lastRow) =
        .error "Parameter 'lastRow' should be equal to or larger than parameter 'fromRow'.")
      ↔ lastRow < s := by
  rw [fstRead_valid_eq f sel s (some lastRow) colIndex hid hv hch hsel htypes]
  have hno : ¬ (s - 1 ≥ Int.ofNat f.chunkRows0 ∨ s - 1 < 0) := by omega
  simp only [rowRangeCheck]
  rw [if_neg hno]
  by_cases hlt : lastRow ≤ s - 1
  · rw [if_pos hlt]
    exact iff_of_true rfl (by omega)
  · rw [if_neg hlt]
    exact iff_of_false (fun h' => Except.noConfusion h') (by omega)

/-- Counterexample to C2 as stated: at `fromRow = toRow = 2` the claim
predicts a `BadArgument` failure (`toRow ≤ fromRow`), but the reader
succeeds and returns the single row 2 (`length = 1` in both decode
requests). -/
theorem claimC2_counterexample :
    fstRead sampleV1 none 2 (some 2) =
      .ok { selectedNames := ["a", "b"],
            decodes := [⟨0, 8, 300, 1, 1, 3⟩, ⟨1, 9, 400, 1, 1, 3⟩],
            found := 0, keyNames := none, warnings := [] } := by rfl

/-- Witness for C2 (amended) at `fromRow = 2`, `toRow = 1`. -/
theorem claimC2_witness :
    fstRead sampleV1 none 2 (some 1) =
      .error "Parameter 'lastRow' should be equal to or larger than parameter 'fromRow'." :=
  (claimC2_amended_toRow sampleV1 none 2 1 [0, 1] rfl rfl (by decide) rfl
    (by decide) (by decide) (by decide)).mpr (by decide)

/-- C3: `fromRow < 1` fails with the positive-value error; `fromRow`
beyond `nrOfRows` fails with the out-of-range error; for `fromRow` in
`[1, nrOfRows]` and `toRow > fromRow - 1` the read succeeds with row count
`min (toRow - (fromRow-1)) (nrOfRows - (fromRow-1))`, which is clamped to
at most `nrOfRows - (fromRow-1)` — a `toRow` beyond EOF is silently
truncated; a `toRow ≤ fromRow - 1` is rejected. -/
theorem claimC3_row_validation (f : RawFile) (sel : Option (List String)) (s : Int)
    (colIndex : List Nat)
    (hid : f.fileId = FST_FILE_ID) (hv : f.version = 1) (hch : ¬ 1 < f.nrOfChunks)
    (hsel : resolveColumns f.colNames f.nrOfCols sel = .ok colIndex)
    (htypes : ∀ c ∈ colIndex, f.colTypes.getD c 0 ∈ [6, 7, 8, 9, 10]) :
    (s < 1 → ∀ e, fstRead f sel s e =
        .error "Parameter fromRow should have a positive value.") ∧
    (1 ≤ s → Int.ofNat f.chunkRows0 < s → ∀ e, fstRead f sel s e =
        .error "Row selection is out of range.") ∧
    (1 ≤ s → s ≤ Int.ofNat f.chunkRows0 → ∀ lastRow : Int, s - 1 < lastRow →
      fstRead f sel s (some lastRow) =
        .ok (buildReadOutput f.colNames f.keyColPos f.keyLength colIndex
          (colIndex.map (fun c =>
            ⟨c, f.colTypes.getD c 0, f.colPositions.getD c 0, s - 1,
              min (lastRow - (s - 1)) (Int.ofNat f.chunkRows0 - (s - 1)),
              Int.ofNat f.chunkRows0⟩)) []) ∧
      min (lastRow - (s - 1)) (Int.ofNat f.chunkRows0 - (s - 1))
        ≤ Int.ofNat f.chunkRows0 - (s - 1)) ∧
    (1 ≤ s → s ≤ Int.ofNat f.chunkRows0 → ∀ lastRow : Int, lastRow ≤ s - 1 →
      fstRead f sel s (some lastRow) =
        .error "Parameter 'lastRow' should be equal to or larger than parameter 'fromRow'.") := by
  refine ⟨?_, ?_, ?_, ?_⟩
  · intro hs e
    rw [fstRead_valid_eq f sel s e colIndex hid hv hch hsel htypes]
    have hcond : (s - 1 ≥ Int.ofNat f.chunkRows0 ∨ s - 1 < 0) := by right; omega
    simp only [rowRangeCheck]
    rw [if_pos hcond, if_pos (show s - 1 < 0 by omega)]
  · intro hs1 hs2 e
    rw [fstRead_valid_eq f sel s e colIndex hid hv hch hsel htypes]
    have hcond : (s - 1 ≥ Int.ofNat f.chunkRows0 ∨ s - 1 < 0) := by left; omega
    simp only [rowRangeCheck]
    rw [if_pos hcond, if_neg (show ¬ s - 1 < 0 by omega)]
  · intro hs1 hs2 lastRow hlr
    rw [fstRead_valid_eq f sel s (some lastRow) colIndex hid hv hch hsel htypes]
    have hno : ¬ (s - 1 ≥ Int.ofNat f.chunkRows0 ∨ s - 1 < 0) := by omega
    refine ⟨?_, min_le_right _ _⟩
    simp only [rowRangeCheck]
    rw [if_neg hno]
    rw [if_neg (show ¬ lastRow ≤ s - 1 by omega)]
  · intro hs1 hs2 lastRow hlr
    rw [fstRead_valid_eq f sel s (some lastRow) colIndex hid hv hch hsel htypes]
    have hno : ¬ (s - 1 ≥ Int.ofNat f.chunkRows0 ∨ s - 1 < 0) := by omega
    simp only [rowRangeCheck]
    rw [if_neg hno]
    rw [if_pos hlr]

/-- Witness for C3 at `fromRow = 0`. -/
theorem claimC3_witness :
    fstRead sampleV1 none 0 none =
      .error "Parameter fromRow should have a positive value." :=
  (claimC3_row_validation sampleV1 none 0 [0, 1] rfl rfl (by decide) rfl
    (by decide)).1 (by decide) none

/-- C8 (amended): of the two legacy entry points, only the full read
(`fstRead_v1`) emits the deprecation warning on success; the metadata-only
`fstMeta_v1` contains no warning call and succeeds silently. -/
theorem claimC8_amended_warning :
    (∀ (f0 : FileV0) (sel : Option (List String)) (s : Int) (e : Option Int)
        (out : ReadOutput),
      fstRead_v1 f0 sel s e = .ok out → out.warnings = [deprecationMsg]) ∧
    (∀ (f0 : FileV0) (m : MetaOutput), fstMeta_v1 f0 = .ok m → m.warnings = []) := by
  constructor
  · intro f0 sel s e out h
    unfold fstRead_v1 at h
    split at h
    · exact Except.noConfusion h
    · split at h
      · exact Except.noConfusion h
      · split at h
        · exact Except.noConfusion h
        · split at h
          · exact Except.noConfusion h
          · injection h with h'
            subst h'
            rfl
  · intro f0 m h
    unfold fstMeta_v1 at h
    split at h
    · exact Except.noConfusion h
    · dsimp only at h
      split at h
      · exact Except.noConfusion h
      · injection h with h'
        subst h'
        rfl

/-- Counterexample to C8 as stated: the metadata-only read of a legacy file
succeeds with an empty warning list — no deprecation warning is produced by
`fstMeta_v1` (its source contains no `Rf_warning` call). -/
theorem claimC8_counterexample :
    fstMeta_v1 sampleV0 =
      .ok { nrOfCols := 2, nrOfRows := 3, fstVersion := 0, colTypeVec := [2, 2],
            keyLength := 0, keyNames := none, keyColIndex := none,
            colNames := ["a", "b"], nrOfChunks := 1, warnings := [] } := by rfl

/-- Witness for C8 (amended): the successful full legacy read of `sampleV0`
carries the deprecation warning. -/
theorem claimC8_witness :
    (ReadOutput.mk ["a", "b"] [⟨0, 2, 100, 0, 3, 3⟩, ⟨1, 2, 200, 0, 3, 3⟩]
      0 none [deprecationMsg]).warnings = [deprecationMsg] :=
  claimC8_amended_warning.1 sampleV0 none 1 none _ rfl

theorem decodeColumns_error_iff (nrOfCols : Nat) (typeOf posOf posOf' : Nat → Nat)
    (validCodes : List Nat) (firstRow lenR nrOfRows : Int) :
    ∀ (colIndex : List Nat) (m : String),
      decodeColumns nrOfCols typeOf posOf validCodes colIndex firstRow lenR nrOfRows
          = .error m ↔
      decodeColumns nrOfCols typeOf posOf' validCodes colIndex firstRow lenR nrOfRows
          = .error m := by
  intro colIndex
  induction colIndex with
  | nil =>
    intro m
    constructor <;> intro h <;> exact Except.noConfusion h
  | cons c rest ih =>
    intro m
    by_cases hb : nrOfCols ≤ c
    · simp only [decodeColumns, if_pos hb]
    · by_cases ht : typeOf c ∈ validCodes
      · simp only [decodeColumns, if_neg hb, if_pos ht]
        cases h1 : decodeColumns nrOfCols typeOf posOf validCodes rest firstRow lenR
            nrOfRows with
        | error e1 =>
          have h2 := (ih e1).mp h1
          simp only [h1, h2]
        | ok ds1 =>
          cases h2 : decodeColumns nrOfCols typeOf posOf' validCodes rest firstRow lenR
              nrOfRows with
          | error e2 =>
            have h3 := (ih e2).mpr h2
            rw [h1] at h3
            exact Except.noConfusion h3
          | ok ds2 =>
            simp only [h1, h2]
            constructor <;> intro h' <;> exact Except.noConfusion h'
      · simp only [decodeColumns, if_neg hb, if_neg ht]

theorem resolveNames_error (colNames : List String) (n : Nat) :
    ∀ (names : List String) (m : String),
      resolveNames colNames n names = .error m → m = "Selected column not found." := by
  intro names
  induction names with
  | nil => intro m h; exact Except.noConfusion h
  | cons nm rest ih =>
    intro m h
    simp only [resolveNames] at h
    split at h
    next =>
      injection h with h'
      exact h'.symm
    next c0 hf =>
      split at h
      next e he =>
        injection h with h'
        subst h'
        exact ih e he
      next => exact Except.noConfusion h

/-- The only error the column-selection resolution can produce. -/
theorem resolveColumns_error (colNames : List String) (n : Nat)
    (sel : Option (List String)) (m : String)
    (h : resolveColumns colNames n sel = .error m) :
    m = "Selected column not found." := by
  cases sel with
  | none => exact Except.noConfusion h
  | some names => exact resolveNames_error colNames n names m h

/-- The only errors the row-range validation can produce. -/
theorem rowRangeCheck_error (startRow : Int) (endRow : Option Int) (nrOfRows : Int)
    (m : String) (h : rowRangeCheck startRow endRow nrOfRows = .error m) :
    m = "Parameter fromRow should have a positive value." ∨
    m = "Row selection is out of range." ∨
    m = "Parameter 'lastRow' should be equal to or larger than parameter 'fromRow'." := by
  simp only [rowRangeCheck] at h
  split at h
  · injection h with h'
    split at h'
    · exact Or.inl h'.symm
    · exact Or.inr (Or.inl h'.symm)
  · split at h
    · exact Except.noConfusion h
    · split at h
      · injection h with h'
        exact Or.inr (Or.inr h'.symm)
      · exact Except.noConfusion h

/-- The only errors the per-column decode dispatch can produce. -/
theorem decodeColumns_error (nrOfCols : Nat) (typeOf posOf : Nat → Nat)
    (validCodes : List Nat) (firstRow lenR nrOfRows : Int) :
    ∀ (colIndex : List Nat) (m : String),
      decodeColumns nrOfCols typeOf posOf validCodes colIndex firstRow lenR nrOfRows
        = .error m →
      m = "Column selection is out of range." ∨ m = "Unknown type found in column." := by
  intro colIndex
  induction colIndex with
  | nil => intro m h; exact Except.noConfusion h
  | cons c rest ih =>
    intro m h
    simp only [decodeColumns] at h
    split at h
    · injection h with h'
      exact Or.inl h'.symm
    · split at h
      · split at h
        next e he =>
          injection h with h'
          subst h'
          exact ih e he
        next => exact Except.noConfusion h
      · injection h with h'
        exact Or.inr h'.symm

/-- When the first three legacy header checks pass and the block positions
are non-decreasing — equal adjacent entries included — the header checks
succeed: the loop only rejects `allBlockPos[c] < allBlockPos[c-1]`. -/
theorem v0HeaderChecks_ok_of_nondecreasing (f0 : FileV0)
    (h1 : ¬ (f0.colSize0 < 0 ∨ f0.colSize1 < 0))
    (h2 : (List.range (v0KeyLength f0)).any
      (fun k => decide (f0.keyColumns.getD k 0 < 0 ∨
        (v0NrOfCols f0 : Int) ≤ f0.keyColumns.getD k 0)) = false)
    (h3 : (List.range (v0NrOfCols f0)).any
      (fun c => decide (f0.colTypes.getD c 0 < 0 ∨ 5 < f0.colTypes.getD c 0)) = false)
    (hmono : ∀ c, 2 ≤ c → c ≤ v0NrOfCols f0 →
      f0.allBlockPos.getD (c - 1) 0 ≤ f0.allBlockPos.getD c 0) :
    v0HeaderChecks f0 = .ok () := by
  have hany : (List.range' 2 (v0NrOfCols f0 - 1)).any
      (fun c => decide (f0.allBlockPos.getD c 0 < f0.allBlockPos.getD (c - 1) 0))
        = false := by
    cases hb : (List.range' 2 (v0NrOfCols f0 - 1)).any
        (fun c => decide (f0.allBlockPos.getD c 0 < f0.allBlockPos.getD (c - 1) 0)) with
    | false => rfl
    | true =>
      exfalso
      obtain ⟨x, hx, hpx⟩ := List.any_eq_true.mp hb
      obtain ⟨hx2, hxlt⟩ := List.mem_range'_1.mp hx
      exact absurd (of_decide_eq_true hpx)
        (not_lt.mpr (hmono x hx2 (by omega)))
  unfold v0HeaderChecks
  rw [if_neg h1, if_neg (by rw [h2]; exact Bool.false_ne_true),
    if_neg (by rw [h3]; exact Bool.false_ne_true),
    if_neg (by rw [hany]; exact Bool.false_ne_true)]

/-- C1 (amended): the monotonicity validation of the column-position index
exists only in the legacy-v0 reader, and it is non-strict — when the
earlier header checks pass, an adjacent entry strictly smaller than its
predecessor is rejected with the header `(blockPos)` error (part 1), while
any non-decreasing index, equal adjacent entries included, passes the
check: the `(blockPos)` error is never raised (part 2); the current-format
`fstRead` performs no check at all on the column positions: whether it
errors (and with which message) is entirely independent of the recorded
positions (part 3). -/
theorem claimC1_amended_monotonic :
    (∀ (f0 : FileV0) (sel : Option (List String)) (s : Int) (e : Option Int),
      ¬ (f0.colSize0 < 0 ∨ f0.colSize1 < 0) →
      ((List.range (v0KeyLength f0)).any
        (fun k => decide (f0.keyColumns.getD k 0 < 0 ∨
          (v0NrOfCols f0 : Int) ≤ f0.keyColumns.getD k 0)) = false) →
      ((List.range (v0NrOfCols f0)).any
        (fun c => decide (f0.colTypes.getD c 0 < 0 ∨ 5 < f0.colTypes.getD c 0)) = false) →
      (∃ c, 2 ≤ c ∧ c ≤ v0NrOfCols f0 ∧
        f0.allBlockPos.getD c 0 < f0.allBlockPos.getD (c - 1) 0) →
      fstRead_v1 f0 sel s e =
        .error "Error reading file header (blockPos), are you sure this is a fst file?") ∧
    (∀ (f0 : FileV0) (sel : Option (List String)) (s : Int) (e : Option Int),
      ¬ (f0.colSize0 < 0 ∨ f0.colSize1 < 0) →
      ((List.range (v0KeyLength f0)).any
        (fun k => decide (f0.keyColumns.getD k 0 < 0 ∨
          (v0NrOfCols f0 : Int) ≤ f0.keyColumns.getD k 0)) = false) →
      ((List.range (v0NrOfCols f0)).any
        (fun c => decide (f0.colTypes.getD c 0 < 0 ∨ 5 < f0.colTypes.getD c 0)) = false) →
      (∀ c, 2 ≤ c → c ≤ v0NrOfCols f0 →
        f0.allBlockPos.getD (c - 1) 0 ≤ f0.allBlockPos.getD c 0) →
      fstRead_v1 f0 sel s e ≠
        .error "Error reading file header (blockPos), are you sure this is a fst file?") ∧
    (∀ (f : RawFile) (ps : List Nat) (sel : Option (List String)) (s : Int)
        (e : Option Int) (m : String),
      (fstRead f sel s e = .error m ↔
        fstRead { f with colPositions := ps } sel s e = .error m)) := by
  refine ⟨?_, ?_, ?_⟩
  · intro f0 sel s e h1 h2 h3 hex
    have hmono : (List.range' 2 (v0NrOfCols f0 - 1)).any
        (fun c => decide (f0.allBlockPos.getD c 0 < f0.allBlockPos.getD (c - 1) 0))
          = true := by
      obtain ⟨c, hc2, hcn, hlt⟩ := hex
      refine List.any_eq_true.mpr ⟨c, ?_, by simpa using hlt⟩
      exact List.mem_range'_1.mpr ⟨hc2, by omega⟩
    have hchk : v0HeaderChecks f0 =
        .error "Error reading file header (blockPos), are you sure this is a fst file?" := by
      unfold v0HeaderChecks
      rw [if_neg h1, if_neg (by rw [h2]; exact Bool.false_ne_true),
        if_neg (by rw [h3]; exact Bool.false_ne_true), if_pos hmono]
    unfold fstRead_v1
    rw [hchk]
  · intro f0 sel s e h1 h2 h3 hmono
    have hok := v0HeaderChecks_ok_of_nondecreasing f0 h1 h2 h3 hmono
    unfold fstRead_v1
    rw [hok]
    dsimp only
    cases hsel : resolveColumns f0.colNames (v0NrOfCols f0) sel with
    | error e2 =>
      simp only [hsel]
      intro hcontra
      injection hcontra with h'
      rw [resolveColumns_error f0.colNames (v0NrOfCols f0) sel e2 hsel] at h'
      exact absurd h' (by decide)
    | ok colIndex =>
      simp only [hsel]
      cases hrr : rowRangeCheck s e (Int.ofNat (f0.allBlockPos.getD 0 0)) with
      | error e3 =>
        simp only [hrr]
        intro hcontra
        injection hcontra with h'
        rcases rowRangeCheck_error s e (Int.ofNat (f0.allBlockPos.getD 0 0)) e3 hrr
          with h3' | h3' | h3' <;> (rw [h3'] at h'; exact absurd h' (by decide))
      | ok p =>
        obtain ⟨fr, lr⟩ := p
        simp only [hrr]
        cases hd : decodeColumns (v0NrOfCols f0) (fun c => (f0.colTypes.getD c 0).toNat)
            (fun c => f0.allBlockPos.getD (c + 1) 0) [1, 2, 3, 4, 5] colIndex fr lr
            (Int.ofNat (f0.allBlockPos.getD 0 0)) with
        | error e4 =>
          simp only [hd]
          intro hcontra
          injection hcontra with h'
          rcases decodeColumns_error (v0NrOfCols f0)
              (fun c => (f0.colTypes.getD c 0).toNat)
              (fun c => f0.allBlockPos.getD (c + 1) 0) [1, 2, 3, 4, 5] fr lr
              (Int.ofNat (f0.allBlockPos.getD 0 0)) colIndex e4 hd
            with h4 | h4 <;> (rw [h4] at h'; exact absurd h' (by decide))
        | ok ds =>
          simp only [hd]
          intro hcontra
          exact Except.noConfusion hcontra
  · intro f ps sel s e m
    have hrh : ReadHeader { f with colPositions := ps } = ReadHeader f := rfl
    unfold fstRead
    rw [hrh]
    dsimp only
    cases hh : ReadHeader f with
    | error e' => simp only [hh]
    | ok version =>
      simp only [hh]
      by_cases h0 : version = 0
      · subst h0
        simp
      · simp only [if_neg h0]
        by_cases hch : 1 < f.nrOfChunks
        · simp only [if_pos hch]
        · simp only [if_neg hch]
          cases hsel : resolveColumns f.colNames f.nrOfCols sel with
          | error e2 => simp only [hsel]
          | ok colIndex =>
            simp only [hsel]
            cases hrr : rowRangeCheck s e (Int.ofNat f.chunkRows0) with
            | error e3 => simp only [hrr]
            | ok p =>
              obtain ⟨fr, lr⟩ := p
              simp only [hrr]
              cases hd1 : decodeColumns f.nrOfCols (fun c => f.colTypes.getD c 0)
                  (fun c => f.colPositions.getD c 0) [6, 7, 8, 9, 10] colIndex fr lr
                  (Int.ofNat f.chunkRows0) with
              | error e4 =>
                have hd2 := (decodeColumns_error_iff f.nrOfCols
                  (fun c => f.colTypes.getD c 0) (fun c => f.colPositions.getD c 0)
                  (fun c => ps.getD c 0) [6, 7, 8, 9, 10] fr lr (Int.ofNat f.chunkRows0)
                  colIndex e4).mp hd1
                simp only [hd1, hd2]
              | ok ds1 =>
                cases hd2 : decodeColumns f.nrOfCols (fun c => f.colTypes.getD c 0)
                    (fun c => ps.getD c 0) [6, 7, 8, 9, 10] colIndex fr lr
                    (Int.ofNat f.chunkRows0) with
                | error e4 =>
                  have hd3 := (decodeColumns_error_iff f.nrOfCols
                    (fun c => f.colTypes.getD c 0) (fun c => f.colPositions.getD c 0)
                    (fun c => ps.getD c 0) [6, 7, 8, 9, 10] fr lr (Int.ofNat f.chunkRows0)
                    colIndex e4).mpr hd2
                  rw [hd1] at hd3
                  exact Except.noConfusion hd3
                | ok ds2 =>
                  simp only [hd1, hd2]
                  constructor <;> intro h' <;> exact Except.noConfusion h'

/-- `sampleV1` with a corrupted (decreasing) column-position index. -/
def corruptV1 : RawFile :=
  { sampleV1 with colTypes := [8, 8], colPositions := [100, 50] }

/-- Counterexample to C1 as stated: on a current-format file whose
column-position index is non-monotonic (positions 100 then 50), `fstRead`
does not fail with any error — it succeeds and hands the unchecked,
decreasing positions straight to the column decoders. -/
theorem claimC1_counterexample :
    fstRead corruptV1 none 1 none =
      .ok { selectedNames := ["a", "b"],
            decodes := [⟨0, 8, 100, 0, 3, 3⟩, ⟨1, 8, 50, 0, 3, 3⟩],
            found := 0, keyNames := none, warnings := [] } := by rfl

/-- `sampleV0` with a corrupted (decreasing) column-position index. -/
def corruptV0 : FileV0 := { sampleV0 with allBlockPos := [3, 200, 100] }

/-- `sampleV0` with equal adjacent column positions. -/
def equalPosV0 : FileV0 := { sampleV0 with allBlockPos := [3, 100, 100] }

/-- Witness for C1 (amended): the legacy reader rejects the decreasing
position pair of `corruptV0`, while the equal adjacent positions of
`equalPosV0` pass its check. -/
theorem claimC1_witness :
    fstRead_v1 corruptV0 none 1 none =
      .error "Error reading file header (blockPos), are you sure this is a fst file?" ∧
    fstRead_v1 equalPosV0 none 1 none ≠
      .error "Error reading file header (blockPos), are you sure this is a fst file?" :=
  ⟨claimC1_amended_monotonic.1 corruptV0 none 1 none (by decide) (by decide) (by decide)
      ⟨2, by decide, by decide, by decide⟩,
   claimC1_amended_monotonic.2.1 equalPosV0 none 1 none (by decide) (by decide) (by decide)
      (by intro c hc2 hcn
          have hc : c = 2 := by
            have : v0NrOfCols equalPosV0 = 2 := by decide
            omega
          subst hc
          decide)⟩

end Fst
